import Mathlib

/-!
Verification of the juju rootfs storage provider and the MAAS constraint
encoder, as a shallow embedding of the Go source into Lean 4.

Conventions of the embedding:
* Go strings are Lean `String`s; the Go string helpers used by the code
  (`strings.SplitN`, `strings.TrimSpace`, `strings.HasPrefix`,
  `strings.TrimPrefix`, `strconv.ParseUint`, `strings.Join`) are embedded as
  executable functions over the character list of the string.
* `url.Values` with `Add` is embedded as an insertion-ordered list of
  key/value pairs, `Add` appending at the end.
* Fallible Go code returns `Except String _` (the `String` is the error
  message, `errors.Annotate(err, m)` becoming `m ++ ": " ++ err`).
* A Go nil-pointer dereference or out-of-range index (a panic) is the `none`
  of an outer `Option`: a total embedding must guard these accesses.
* The OS filesystem state seen through `os.Lstat` / `os.MkdirAll` /
  `ioutil.ReadDir` / `os.Remove` is embedded as an association list from
  path to the observable status of that path, unlisted paths not existing.
-/

namespace Juju

/-- Embedding of Go `strings.SplitN(s, sep, 2)` restricted to the one call
site, `sep = "\n"`: split the character list at the first newline. Returns
the pieces; `none` means no newline was found. -/
def splitFirstNewline : List Char → Option (List Char × List Char)
  | [] => none
  | c :: cs =>
    if c = '\n' then some ([], cs)
    else
      match splitFirstNewline cs with
      | none => none
      | some (l, r) => some (c :: l, r)

/-- Embedding of `strings.SplitN(s, "\n", 2)`: one piece when `s` has no
newline, otherwise the part before the first newline and all of the rest. -/
def splitN2 (s : String) : List String :=
  match splitFirstNewline s.data with
  | none => [s]
  | some (l, r) => [String.mk l, String.mk r]

/-- Whitespace recognized by `strings.TrimSpace` (ASCII portion of
`unicode.IsSpace`). -/
def isGoSpace (c : Char) : Bool :=
  c = ' ' || c = '\t' || c = '\n' || c = '\x0b' || c = '\x0c' || c = '\r'

/-- Embedding of Go `strings.TrimSpace`. -/
def goTrimSpace (s : String) : String :=
  String.mk (((s.data.dropWhile isGoSpace).reverse.dropWhile isGoSpace).reverse)

/-- Embedding of Go `strconv.ParseUint(s, 10, 64)`: decimal digits only,
non-empty, value below 2^64. -/
def parseUint64 (s : String) : Except String Nat :=
  if s.data ≠ [] ∧ s.data.all (fun c => c.isDigit) then
    let n := s.data.foldl (fun acc c => acc * 10 + (c.toNat - 48)) 0
    if n < 2 ^ 64 then Except.ok n
    else Except.error ("value out of range: " ++ s)
  else Except.error ("invalid syntax: " ++ s)

/-- Embedding of Go `url.Values` as an insertion-ordered key/value list;
`Add` appends at the end. -/
abbrev UrlValues := List (String × String)

/-- Embedding of `url.Values.Add(key, value)`. -/
def addParam (params : UrlValues) (key value : String) : UrlValues :=
  params ++ [(key, value)]

/-!
Constraint translation (the MAAS encoder of the source:
`convertConstraints`, `convertTagsToParams`, `convertSpacesToBindings`,
`parseDelimitedValues`, `addInterfaces`, `interfaceBinding`).
-/

/-- Embedding of the fields of `constraints.Value` read by the encoder.
Go pointer fields (`*string`, `*uint64`, `*[]string`) become `Option`s;
`uint64` values become `Nat`. -/
structure ConstraintsValue where
  Arch : Option String
  CpuCores : Option Nat
  Mem : Option Nat
  CpuPower : Option Nat
  Tags : Option (List String)
  Spaces : Option (List String)
  deriving DecidableEq

/-- Embedding of the source's `interfaceBinding` struct. -/
structure interfaceBinding where
  Name : String
  SpaceProviderId : String
  IsExcluded : Bool
  deriving DecidableEq

/-- Embedding of `parseDelimitedValues`: split raw signed values into
positives and negatives (the `"^"` marker stripped), dropping empty and
marker-only entries, keeping encounter order in each subset. -/
def parseDelimitedValues : List String → List String × List String
  | [] => ([], [])
  | v :: rest =>
    let r := parseDelimitedValues rest
    match v.data with
    | [] => r
    | c :: cs =>
      if c = '^' then
        if cs = [] then r
        else (r.1, String.mk cs :: r.2)
      else (v :: r.1, r.2)

/-- Embedding of `convertTagsToParams`: join positives into `tags` and
negatives into `not_tags`, omitting either when its subset is empty, and
doing nothing for a nil or empty tag list. -/
def convertTagsToParams (params : UrlValues) (tags : Option (List String)) : UrlValues :=
  match tags with
  | none => params
  | some ts =>
    if ts = [] then params
    else
      let pn := parseDelimitedValues ts
      let params1 := if pn.1 ≠ [] then addParam params "tags" (String.intercalate "," pn.1) else params
      if pn.2 ≠ [] then addParam params1 "not_tags" (String.intercalate "," pn.2) else params1

/-- Embedding of `convertConstraints`: `arch`, `cpu_count`, `mem` pass
through when set; tags are partitioned by `convertTagsToParams`;
`CpuPower` is never encoded (the source only logs a warning); the
function is total, returning a `UrlValues` and never an error. -/
def convertConstraints (cons : ConstraintsValue) : UrlValues :=
  let params : UrlValues := []
  let params := match cons.Arch with
    | some a => addParam params "arch" a
    | none => params
  let params := match cons.CpuCores with
    | some c => addParam params "cpu_count" (Nat.repr c)
    | none => params
  let params := match cons.Mem with
    | some m => addParam params "mem" (Nat.repr m)
    | none => params
  convertTagsToParams params cons.Tags

/-- Inner loop of `convertSpacesToBindings`: turn each space name into a
binding labelled with the running decimal index. -/
def appendBindings (index : Nat) (excluded : Bool) : List String → List interfaceBinding
  | [] => []
  | space :: rest =>
    ⟨Nat.repr index, space, excluded⟩ :: appendBindings (index + 1) excluded rest

/-- Embedding of `convertSpacesToBindings`: positives first, then
negatives, one shared zero-based index counter across both loops. -/
def convertSpacesToBindings (spaces : Option (List String)) : List interfaceBinding :=
  match spaces with
  | none => []
  | some sp =>
    if sp = [] then []
    else
      let pn := parseDelimitedValues sp
      appendBindings 0 false pn.1 ++ appendBindings pn.1.length true pn.2

/-- Loop of `addInterfaces`: check each binding (empty name, empty space
id, duplicate name, in that order) and accumulate the `interfaces` and
`not_networks` pieces; the seen-name set is the list of names already
accepted. -/
def addInterfacesLoop (positives negatives namesSet : List String) :
    List interfaceBinding → Except String (List String × List String)
  | [] => Except.ok (positives, negatives)
  | b :: rest =>
    if b.Name = "" then
      Except.error "interface bindings cannot have empty names"
    else if b.SpaceProviderId = "" then
      Except.error ("invalid interface binding \"" ++ b.Name ++ "\": space provider ID is required")
    else if namesSet.contains b.Name then
      Except.error ("duplicated interface binding \"" ++ b.Name ++ "\"")
    else if b.IsExcluded then
      addInterfacesLoop positives (negatives ++ ["space:" ++ b.SpaceProviderId]) (b.Name :: namesSet) rest
    else
      addInterfacesLoop (positives ++ [b.Name ++ ":space=" ++ b.SpaceProviderId]) negatives (b.Name :: namesSet) rest

/-- Embedding of `addInterfaces`: returns the updated parameters and an
optional error message. The Go function mutates `params` only after the
whole loop has succeeded, so on error the parameters come back unchanged. -/
def addInterfaces (params : UrlValues) (bindings : List interfaceBinding) :
    UrlValues × Option String :=
  if bindings = [] then (params, none)
  else
    match addInterfacesLoop [] [] [] bindings with
    | Except.error e => (params, some e)
    | Except.ok pn =>
      let params1 := if pn.1 ≠ [] then addParam params "interfaces" (String.intercalate ";" pn.1) else params
      let params2 := if pn.2 ≠ [] then addParam params1 "not_networks" (String.intercalate "," pn.2) else params1
      (params2, none)

/-- Characterization following the spec's words: an entry of a signed
list is positive when it is non-empty and does not start with the
exclusion marker. Used to compare `parseDelimitedValues` with the spec. -/
def specIsPositive (v : String) : Bool :=
  match v.data with
  | [] => false
  | c :: _ => if c = '^' then false else true

/-- Characterization following the spec's words: an entry of a signed
list is negative when it starts with the exclusion marker and is not the
bare marker itself. -/
def specIsNegative (v : String) : Bool :=
  match v.data with
  | [] => false
  | c :: cs => if c = '^' then (if cs = [] then false else true) else false

/-- The exclusion marker stripped from a negative entry (drops the first
character). -/
def specStripCaret (v : String) : String :=
  match v.data with
  | [] => v
  | _ :: cs => String.mk cs

/-- The same constraint set with the cpu-power field unset; used to state
that the encoder ignores that field. -/
def eraseCpuPower (c : ConstraintsValue) : ConstraintsValue :=
  ⟨c.Arch, c.CpuCores, c.Mem, none, c.Tags, c.Spaces⟩

/-!
The rootfs filesystem source (`ValidateFilesystemParams`,
`CreateFilesystems`, `createFilesystem`, `validatePath`, `dirFuncs`).
-/

/-- Embedding of the Go `runCommandFunc` type: command name and arguments
to standard output or an error. -/
abbrev runCommandFunc := String → List String → Except String String

/-- The observable status of one path of the modelled OS filesystem:
absent, present but not a directory, a directory with a permission mode
and an entry count, or a path on which `lstat` fails with an error that is
not a does-not-exist error (e.g. permission denied). -/
inductive StatOutcome where
  | notExist
  | file
  | dir (perm : Nat) (count : Nat)
  | statError (msg : String)
  deriving DecidableEq

/-- The modelled OS filesystem state: an association list from path to
status; a path without an entry does not exist. Later entries are
shadowed by earlier ones, so an update is a cons. -/
abbrev World := List (String × StatOutcome)

/-- Status of a path in a world; unlisted paths do not exist. -/
def lookupWorld : World → String → StatOutcome
  | [], _ => StatOutcome.notExist
  | (q, o) :: rest, p => if q = p then o else lookupWorld rest p

/-- State update of the modelled filesystem at one path. -/
def updateWorld (w : World) (p : String) (o : StatOutcome) : World :=
  (p, o) :: w

/-- Outcome of the Go `lstat` call as the code distinguishes it:
success (with the `IsDir` bit of the returned file info), an error
satisfying `os.IsNotExist`, or any other error — in which case the
returned file info is nil. -/
inductive LstatResult where
  | ok (isDir : Bool)
  | errNotExist
  | errOther (msg : String)
  deriving DecidableEq

/-- Embedding of the source's `dirFuncs` interface over a state type `σ`:
`mkDirAll` (recursive directory creation with a permission mode, embedded
as a `Nat`), `lstat` (read-only) and `fileCount` (read-only). -/
structure DirFuncs (σ : Type) where
  mkDirAll : σ → String → Nat → Except String σ
  lstat : σ → String → LstatResult
  fileCount : σ → String → Except String Nat

/-- The permission mode the source passes to `mkDirAll` (octal 755). -/
def mkDirAllPerm : Nat := 0o755

/-- Embedding of the source's `osDirFuncs` over the modelled filesystem:
`mkDirAll` (os.MkdirAll) records a fresh empty directory with the given
mode, `lstat` (os.Lstat) reads the path status, `fileCount`
(ioutil.ReadDir + len) reads the entry count of a directory. -/
def worldDirFuncs : DirFuncs World where
  mkDirAll := fun w p perm => Except.ok (updateWorld w p (StatOutcome.dir perm 0))
  lstat := fun w p =>
    match lookupWorld w p with
    | StatOutcome.notExist => LstatResult.errNotExist
    | StatOutcome.file => LstatResult.ok false
    | StatOutcome.dir _ _ => LstatResult.ok true
    | StatOutcome.statError m => LstatResult.errOther m
  fileCount := fun w p =>
    match lookupWorld w p with
    | StatOutcome.dir _ n => Except.ok n
    | _ => Except.error "could not read directory: not a directory"

/-- Embedding of `validatePath` over an arbitrary `dirFuncs`
implementation, following the Go control flow exactly: when `lstat` fails
with a does-not-exist error the path is created with mode `mkDirAllPerm`;
otherwise the code calls `IsDir()` on the returned file info — when
`lstat` failed with any other error that file info is nil, so the
dereference is a panic, embedded as `none`. -/
def validatePath (d : DirFuncs σ) (s : σ) (path : String) : Option (Except String σ) :=
  match d.lstat s path with
  | LstatResult.errNotExist =>
    match d.mkDirAll s path mkDirAllPerm with
    | Except.error e => some (Except.error ("could not create directory: " ++ e))
    | Except.ok s2 => some (Except.ok s2)
  | LstatResult.ok isDir =>
    if isDir then
      match d.fileCount s path with
      | Except.error e => some (Except.error ("could not read directory: " ++ e))
      | Except.ok n =>
        if n > 0 then some (Except.error "path must be empty")
        else some (Except.ok s)
    else some (Except.error ("path \"" ++ path ++ "\" must be a directory"))
  | LstatResult.errOther _ => none

/-- Embedding of `storage.FilesystemAttachmentParams` as the source reads
it: machine tag and mount path. -/
structure FilesystemAttachmentParams where
  Machine : String
  Path : String
  deriving DecidableEq

/-- Embedding of `storage.FilesystemParams`: filesystem tag, requested
size in MiB (`uint64` as `Nat`) and optional attachment. -/
structure FilesystemParams where
  Tag : String
  Size : Nat
  Attachment : Option FilesystemAttachmentParams
  deriving DecidableEq

/-- Embedding of the `storage.Filesystem` result: tag and measured size
in MiB. -/
structure Filesystem where
  Tag : String
  Size : Nat
  deriving DecidableEq

/-- Embedding of the `storage.FilesystemAttachment` result. -/
structure FilesystemAttachment where
  Filesystem : String
  Machine : String
  Path : String
  deriving DecidableEq

/-- Embedding of `ValidateFilesystemParams`: fails with the
`errors.NotSupportedf` message when the request has no attachment. -/
def ValidateFilesystemParams (params : FilesystemParams) : Except String Unit :=
  match params.Attachment with
  | none => Except.error "creating filesystem without machine attachment not supported"
  | some _ => Except.ok ()

/-- Embedding of `createFilesystem` over the modelled filesystem (the
production `osDirFuncs` instance plus the direct `os.Remove` calls) and
an injected `run` command. The result is `none` exactly where the Go code
panics: the unguarded `lines[1]` index when the `df` output has no
newline (`strings.SplitN(out, "\n", 2)` then returns a single piece). On
a `df` error, a parse error or insufficient measured capacity the path is
removed (`os.Remove`, its error ignored) before the error is returned. -/
def createFilesystem (run : runCommandFunc) (w : World) (params : FilesystemParams) :
    Option (World × Except String (Filesystem × FilesystemAttachment)) :=
  match ValidateFilesystemParams params with
  | Except.error e => some (w, Except.error e)
  | Except.ok _ =>
    match params.Attachment with
    | none => none
    | some att =>
      if att.Path = "" then
        some (w, Except.error "cannot create a filesystem mount without specifying a path")
      else
        match validatePath worldDirFuncs w att.Path with
        | none => none
        | some (Except.error e) => some (w, Except.error e)
        | some (Except.ok w1) =>
          match run "df" ["--output=size", att.Path] with
          | Except.error e =>
            some (updateWorld w1 att.Path StatOutcome.notExist,
              Except.error ("getting size: " ++ e))
          | Except.ok dfOutput =>
            match splitN2 dfOutput with
            | [_, second] =>
              match parseUint64 (goTrimSpace second) with
              | Except.error e =>
                some (updateWorld w1 att.Path StatOutcome.notExist,
                  Except.error ("parsing size: " ++ e))
              | Except.ok blocks =>
                let sizeInMiB := blocks / 1024
                if sizeInMiB < params.Size then
                  some (updateWorld w1 att.Path StatOutcome.notExist,
                    Except.error ("filesystem is not big enough (" ++ Nat.repr sizeInMiB
                      ++ "M < " ++ Nat.repr params.Size ++ "M)"))
                else
                  some (w1, Except.ok (⟨params.Tag, sizeInMiB⟩, ⟨params.Tag, att.Machine, att.Path⟩))
            | _ => none

/-- Embedding of `CreateFilesystems`: requests processed in input order,
world threaded through; the first per-item failure makes the whole call
return that error annotated with "creating filesystem", without the
result lists of earlier items, and without undoing their effects on the
world. -/
def CreateFilesystems (run : runCommandFunc) (w : World) :
    List FilesystemParams →
    Option (World × Except String (List Filesystem × List FilesystemAttachment))
  | [] => some (w, Except.ok ([], []))
  | a :: rest =>
    match createFilesystem run w a with
    | none => none
    | some (w1, Except.error e) => some (w1, Except.error ("creating filesystem: " ++ e))
    | some (w1, Except.ok (f, fa)) =>
      match CreateFilesystems run w1 rest with
      | none => none
      | some (w2, Except.error e) => some (w2, Except.error e)
      | some (w2, Except.ok r) => some (w2, Except.ok (f :: r.1, fa :: r.2))

/-!
Theorems. Helper lemmas come first, then one theorem per claim (with a
closed witness where the claim's theorem carries hypotheses).
-/

/-- Every pair of the parameter list produced by `convertTagsToParams`
either was already present or carries the key `tags` or `not_tags`. -/
lemma mem_convertTagsToParams_keys (params : UrlValues) (tags : Option (List String))
    (kv : String × String) (h : kv ∈ convertTagsToParams params tags) :
    kv ∈ params ∨ kv.1 = "tags" ∨ kv.1 = "not_tags" := by
  cases tags with
  | none => exact Or.inl h
  | some ts =>
    by_cases hts : ts = []
    · subst hts; exact Or.inl h
    · simp only [convertTagsToParams, hts, if_neg, ite_not] at h
      by_cases h1 : (parseDelimitedValues ts).1 = [] <;>
        by_cases h2 : (parseDelimitedValues ts).2 = [] <;>
          simp [h1, h2, addParam, List.mem_append] at h <;> aesop

/-- Membership in an `addParam` result comes from the old list or is the
new key. -/
lemma mem_addParam (params : UrlValues) (k v : String) (kv : String × String)
    (h : kv ∈ addParam params k v) : kv ∈ params ∨ kv.1 = k := by
  simp only [addParam, List.mem_append, List.mem_singleton] at h
  rcases h with h | rfl
  · exact Or.inl h
  · exact Or.inr rfl

/-- C7: parseDelimitedValues partitions a raw signed list exhaustively and
exclusively: the positive output is exactly the entries that are non-empty
and unmarked, in order; the negative output is exactly the marked entries
other than the bare marker, in order and with the marker stripped; an
entry that is neither empty nor the bare marker is positive exactly when
it is not negative, and the empty and bare-marker entries are neither;
convertTagsToParams joins the positives into the `tags` parameter and the
negatives into `not_tags`, omitting either when its subset is empty. -/
theorem parseDelimitedValues_partition :
    (∀ raw : List String,
      parseDelimitedValues raw =
        (raw.filter specIsPositive, (raw.filter specIsNegative).map specStripCaret)) ∧
    (∀ v : String, v ≠ "" → v ≠ "^" → specIsPositive v = !(specIsNegative v)) ∧
    (specIsPositive "" = false ∧ specIsNegative "" = false ∧
      specIsPositive "^" = false ∧ specIsNegative "^" = false) ∧
    (∀ params : UrlValues, convertTagsToParams params none = params) ∧
    (∀ (params : UrlValues) (ts : List String),
      convertTagsToParams params (some ts) =
        params
          ++ (if (parseDelimitedValues ts).1 = [] then []
              else [("tags", String.intercalate "," (parseDelimitedValues ts).1)])
          ++ (if (parseDelimitedValues ts).2 = [] then []
              else [("not_tags", String.intercalate "," (parseDelimitedValues ts).2)])) := by
  refine ⟨?_, ?_, ?_, ?_, ?_⟩
  · intro raw
    induction raw with
    | nil => rfl
    | cons v rest ih =>
      rcases hv : v.data with _ | ⟨c, cs⟩ <;>
        simp only [parseDelimitedValues, specIsPositive, specIsNegative, specStripCaret,
          hv, List.filter_cons, ih] <;> try rfl
      by_cases hc : c = '^'
      · by_cases hcs : cs = [] <;> simp [hc, hcs, specStripCaret, hv]
      · simp [hc]
  · intro v hne hmark
    obtain ⟨l⟩ := v
    rcases l with _ | ⟨c, cs⟩
    · exact absurd rfl hne
    · by_cases hc : c = '^'
      · subst hc
        rcases cs with _ | ⟨d, ds⟩
        · exact absurd rfl hmark
        · simp [specIsPositive, specIsNegative]
      · simp [specIsPositive, specIsNegative, hc]
  · refine ⟨rfl, rfl, rfl, rfl⟩
  · intro params; rfl
  · intro params ts
    by_cases hts : ts = []
    · subst hts; simp [convertTagsToParams, parseDelimitedValues]
    · simp only [convertTagsToParams, hts, if_neg, ite_not]
      by_cases h1 : (parseDelimitedValues ts).1 = [] <;>
        by_cases h2 : (parseDelimitedValues ts).2 = [] <;>
          simp [h1, h2, addParam, List.append_assoc]

/-- C8: the constraint encoder never reads the cpu-power field — the
encoded output of any constraint set equals that of the same set with
cpu-power unset — and every encoded parameter key is one of `arch`,
`cpu_count`, `mem`, `tags`, `not_tags`, so no cpu-power parameter is ever
emitted; the encoder is a total function, so translation never fails. -/
theorem convertConstraints_cpuPower_dropped :
    (∀ cons : ConstraintsValue, convertConstraints cons = convertConstraints (eraseCpuPower cons)) ∧
    (∀ cons : ConstraintsValue, ∀ kv ∈ convertConstraints cons,
      kv.1 ∈ (["arch", "cpu_count", "mem", "tags", "not_tags"] : List String)) := by
  constructor
  · intro cons; rfl
  · intro cons kv hkv
    obtain ⟨arch, cores, mem, power, tags, spaces⟩ := cons
    simp only [convertConstraints] at hkv
    rcases mem_convertTagsToParams_keys _ _ _ hkv with h | h | h
    · cases arch <;> cases cores <;> cases mem <;> simp [addParam] at h <;> aesop
    · simp [h]
    · simp [h]

/-- C8 witness: a concrete constraint set with cpu-power set encodes the
same as with it unset, and the key of a concrete encoded pair is among
the allowed keys. -/
theorem convertConstraints_cpuPower_dropped_witness :
    convertConstraints ⟨some "amd64", none, none, some 100, none, none⟩ =
      convertConstraints (eraseCpuPower ⟨some "amd64", none, none, some 100, none, none⟩) ∧
    ("arch", "amd64").1 ∈ (["arch", "cpu_count", "mem", "tags", "not_tags"] : List String) :=
  ⟨convertConstraints_cpuPower_dropped.1 ⟨some "amd64", none, none, some 100, none, none⟩,
    convertConstraints_cpuPower_dropped.2 ⟨some "amd64", none, none, some 100, none, none⟩
      ("arch", "amd64") (by decide)⟩

/-- C7 witness: the partition theorem applied to scenario E's tag list
and to a concrete unmarked entry. -/
theorem parseDelimitedValues_partition_witness :
    specIsPositive "x" = !(specIsNegative "x") ∧
    convertTagsToParams [] (some ["a", "^b", ""]) = [("tags", "a"), ("not_tags", "b")] := by
  refine ⟨parseDelimitedValues_partition.2.1 "x" (by decide) (by decide), ?_⟩
  rw [parseDelimitedValues_partition.2.2.2.2 [] ["a", "^b", ""]]
  decide

/-- A successful `addInterfacesLoop` pass means every examined binding had
a non-empty name not yet seen and a non-empty space id, so the names are
pairwise distinct and disjoint from the seen set. -/
lemma addInterfacesLoop_ok_sound :
    ∀ (bs : List interfaceBinding) (pos neg seen : List String) (r : List String × List String),
      addInterfacesLoop pos neg seen bs = Except.ok r →
      (∀ b ∈ bs, b.Name ≠ "" ∧ b.SpaceProviderId ≠ "") ∧
      (bs.map interfaceBinding.Name).Nodup ∧
      (∀ b ∈ bs, b.Name ∉ seen) := by
  intro bs
  induction bs with
  | nil => intro pos neg seen r _; simp
  | cons b rest ih =>
    intro pos neg seen r h
    simp only [addInterfacesLoop] at h
    by_cases h1 : b.Name = ""
    · simp [h1] at h
    by_cases h2 : b.SpaceProviderId = ""
    · simp [h1, h2] at h
    by_cases h3 : b.Name ∈ seen
    · simp [h1, h2, h3] at h
    have hrec : addInterfacesLoop (if b.IsExcluded then pos else pos ++ [b.Name ++ ":space=" ++ b.SpaceProviderId])
        (if b.IsExcluded then neg ++ ["space:" ++ b.SpaceProviderId] else neg)
        (b.Name :: seen) rest = Except.ok r := by
      cases hex : b.IsExcluded <;> simp [h1, h2, h3, hex] at h ⊢ <;> exact h
    obtain ⟨hfields, hnodup, hseen⟩ := ih _ _ _ _ hrec
    refine ⟨?_, ?_, ?_⟩
    · intro b' hb'
      rcases List.mem_cons.mp hb' with rfl | hb'
      · exact ⟨h1, h2⟩
      · exact hfields b' hb'
    · refine List.nodup_cons.mpr ⟨?_, hnodup⟩
      intro hmem
      rcases List.mem_map.mp hmem with ⟨b', hb', hname⟩
      exact hseen b' hb' (hname ▸ List.mem_cons_self _ _)
    · intro b' hb'
      rcases List.mem_cons.mp hb' with rfl | hb'
      · exact h3
      · intro hmem
        exact hseen b' hb' (List.mem_cons_of_mem _ hmem)

/-- C5: the interface-binding encoder fails whenever some binding has an
empty name, some binding has an empty space identifier, or two bindings
share a name; on any failure the parameter list comes back exactly as it
went in (all-or-nothing), and a concrete duplicated name aborts with that
name quoted in the error message. -/
theorem addInterfaces_invalid_all_or_nothing :
    (∀ (params : UrlValues) (bindings : List interfaceBinding),
      ((∃ b ∈ bindings, b.Name = "") ∨ (∃ b ∈ bindings, b.SpaceProviderId = "") ∨
        ¬ (bindings.map interfaceBinding.Name).Nodup) →
      (addInterfaces params bindings).2.isSome = true) ∧
    (∀ (params : UrlValues) (bindings : List interfaceBinding),
      (addInterfaces params bindings).2.isSome = true →
      (addInterfaces params bindings).1 = params) ∧
    addInterfaces [("k", "v")] [⟨"x", "s1", false⟩, ⟨"x", "s2", false⟩] =
      ([("k", "v")], some "duplicated interface binding \"x\"") := by
  refine ⟨?_, ?_, by decide⟩
  · intro params bindings hbad
    by_cases hb : bindings = []
    · subst hb
      rcases hbad with ⟨b, hm, _⟩ | ⟨b, hm, _⟩ | hnd
      · cases hm
      · cases hm
      · exact absurd List.nodup_nil hnd
    · simp only [addInterfaces, hb, if_neg, ite_not, if_false]
      cases hloop : addInterfacesLoop [] [] [] bindings with
      | error e => simp [hb, hloop]
      | ok r =>
        exfalso
        obtain ⟨hfields, hnodup, _⟩ := addInterfacesLoop_ok_sound bindings [] [] [] r hloop
        rcases hbad with ⟨b, hm, hname⟩ | ⟨b, hm, hsp⟩ | hnd
        · exact (hfields b hm).1 hname
        · exact (hfields b hm).2 hsp
        · exact hnd hnodup
  · intro params bindings h
    by_cases hb : bindings = []
    · subst hb
      simp [addInterfaces] at h
    · cases hloop : addInterfacesLoop [] [] [] bindings with
      | error e => simp [addInterfaces, hb, hloop]
      | ok r => simp [addInterfaces, hb, hloop] at h


/-- C5 witness: a concrete binding list with a duplicated name makes the
encoder report a failure and leave the parameters untouched. -/
theorem addInterfaces_invalid_witness :
    (addInterfaces [] [⟨"0", "s1", false⟩, ⟨"0", "s2", true⟩]).2.isSome = true ∧
    (addInterfaces [] [⟨"0", "s1", false⟩, ⟨"0", "s2", true⟩]).1 = [] :=
  ⟨addInterfaces_invalid_all_or_nothing.1 [] [⟨"0", "s1", false⟩, ⟨"0", "s2", true⟩]
      (Or.inr (Or.inr (by decide))),
    addInterfaces_invalid_all_or_nothing.2.1 [] [⟨"0", "s1", false⟩, ⟨"0", "s2", true⟩]
      (addInterfaces_invalid_all_or_nothing.1 [] [⟨"0", "s1", false⟩, ⟨"0", "s2", true⟩]
        (Or.inr (Or.inr (by decide))))⟩

/-- The bindings built by `appendBindings` carry exactly the given space
names, in order. -/
lemma appendBindings_map_space (i : Nat) (e : Bool) (l : List String) :
    (appendBindings i e l).map interfaceBinding.SpaceProviderId = l := by
  induction l generalizing i with
  | nil => rfl
  | cons s rest ih => simp [appendBindings, ih]

/-- The bindings built by `appendBindings` all carry the given exclusion
flag. -/
lemma appendBindings_map_excluded (i : Nat) (e : Bool) (l : List String) :
    (appendBindings i e l).map interfaceBinding.IsExcluded = List.replicate l.length e := by
  induction l generalizing i with
  | nil => rfl
  | cons s rest ih => simp [appendBindings, ih, List.replicate_succ]

/-- The bindings built by `appendBindings` are named with the consecutive
decimal indices starting at the given one. -/
lemma appendBindings_map_name (i : Nat) (e : Bool) (l : List String) :
    (appendBindings i e l).map interfaceBinding.Name = (List.range' i l.length).map Nat.repr := by
  induction l generalizing i with
  | nil => rfl
  | cons s rest ih => simp [appendBindings, ih, List.range'_succ]

/-- One binding per space name. -/
lemma appendBindings_length (i : Nat) (e : Bool) (l : List String) :
    (appendBindings i e l).length = l.length := by
  induction l generalizing i with
  | nil => rfl
  | cons s rest ih => simp [appendBindings, ih]

/-- C6: the space-list translation puts every positive entry before every
negative entry, keeps encounter order inside each subset, and names the
bindings with zero-based sequential decimal indices; on the concrete list
of scenario F it yields the two expected bindings, which encode to the
`interfaces=0:space=s1` and `not_networks=space:s2` parameters. -/
theorem convertSpacesToBindings_ordered :
    (∀ sp : List String,
      (convertSpacesToBindings (some sp)).map interfaceBinding.SpaceProviderId =
        (parseDelimitedValues sp).1 ++ (parseDelimitedValues sp).2 ∧
      (convertSpacesToBindings (some sp)).map interfaceBinding.IsExcluded =
        List.replicate (parseDelimitedValues sp).1.length false ++
          List.replicate (parseDelimitedValues sp).2.length true ∧
      (convertSpacesToBindings (some sp)).map interfaceBinding.Name =
        (List.range (convertSpacesToBindings (some sp)).length).map Nat.repr) ∧
    convertSpacesToBindings (some ["s1", "^s2"]) = [⟨"0", "s1", false⟩, ⟨"1", "s2", true⟩] ∧
    addInterfaces [] [⟨"0", "s1", false⟩, ⟨"1", "s2", true⟩] =
      ([("interfaces", "0:space=s1"), ("not_networks", "space:s2")], none) := by
  refine ⟨?_, by decide, by decide⟩
  intro sp
  by_cases hsp : sp = []
  · subst hsp
    refine ⟨rfl, rfl, rfl⟩
  · simp only [convertSpacesToBindings, hsp, if_neg, ite_not, if_false]
    refine ⟨?_, ?_, ?_⟩
    · simp [List.map_append, appendBindings_map_space]
    · simp [List.map_append, appendBindings_map_excluded]
    · rw [List.map_append, appendBindings_map_name, appendBindings_map_name,
        List.length_append, appendBindings_length, appendBindings_length,
        List.range_eq_range', ← List.map_append]
      congr 1
      have h := List.range'_append 0 (parseDelimitedValues sp).1.length
        (parseDelimitedValues sp).2.length 1
      simp only [Nat.zero_add, Nat.one_mul] at h
      rw [Nat.add_comm ((parseDelimitedValues sp).1.length)]
      exact h

/-- C4: validatePath over the modelled filesystem creates a missing path
as a directory with mode `mkDirAllPerm` (octal 755, under which only the
owner can write), fails when the path exists and is not a directory,
fails with the path-must-be-empty error when the path is a directory with
at least one entry, and succeeds leaving the world untouched when the
path is an empty directory. -/
theorem validatePath_branch_cases :
    (∀ (w : World) (p : String),
      (lookupWorld w p = StatOutcome.notExist →
        validatePath worldDirFuncs w p =
          some (Except.ok (updateWorld w p (StatOutcome.dir mkDirAllPerm 0)))) ∧
      (lookupWorld w p = StatOutcome.file →
        validatePath worldDirFuncs w p =
          some (Except.error ("path \"" ++ p ++ "\" must be a directory"))) ∧
      (∀ perm n, lookupWorld w p = StatOutcome.dir perm (n + 1) →
        validatePath worldDirFuncs w p = some (Except.error "path must be empty")) ∧
      (∀ perm, lookupWorld w p = StatOutcome.dir perm 0 →
        validatePath worldDirFuncs w p = some (Except.ok w))) ∧
    (mkDirAllPerm = 0o755 ∧ mkDirAllPerm &&& 0o222 = 0o200) := by
  refine ⟨?_, by decide, by decide⟩
  intro w p
  refine ⟨?_, ?_, ?_, ?_⟩
  · intro h; simp [validatePath, worldDirFuncs, h]
  · intro h; simp [validatePath, worldDirFuncs, h]
  · intro perm n h; simp [validatePath, worldDirFuncs, h]
  · intro perm h; simp [validatePath, worldDirFuncs, h]

/-- C4 witness: the four branches of validatePath at concrete worlds. -/
theorem validatePath_branch_cases_witness :
    validatePath worldDirFuncs [] "/d" =
      some (Except.ok [("/d", StatOutcome.dir mkDirAllPerm 0)]) ∧
    validatePath worldDirFuncs [("/d", StatOutcome.file)] "/d" =
      some (Except.error "path \"/d\" must be a directory") ∧
    validatePath worldDirFuncs [("/d", StatOutcome.dir mkDirAllPerm 3)] "/d" =
      some (Except.error "path must be empty") ∧
    validatePath worldDirFuncs [("/d", StatOutcome.dir mkDirAllPerm 0)] "/d" =
      some (Except.ok [("/d", StatOutcome.dir mkDirAllPerm 0)]) :=
  ⟨(validatePath_branch_cases.1 [] "/d").1 rfl,
    (validatePath_branch_cases.1 [("/d", StatOutcome.file)] "/d").2.1 rfl,
    (validatePath_branch_cases.1 [("/d", StatOutcome.dir mkDirAllPerm 3)] "/d").2.2.1
      mkDirAllPerm 2 rfl,
    (validatePath_branch_cases.1 [("/d", StatOutcome.dir mkDirAllPerm 0)] "/d").2.2.2
      mkDirAllPerm rfl⟩

/-- C10: over any dirFuncs implementation, when lstat fails with an error
that is not a does-not-exist error the Go code calls IsDir on a nil file
info, so the total embedding returns `none` (the panic case); when lstat
succeeds or fails with does-not-exist, validatePath always produces a
value. -/
theorem validatePath_nil_fileinfo :
    (∀ (σ : Type) (d : DirFuncs σ) (s : σ) (p m : String),
      d.lstat s p = LstatResult.errOther m → validatePath d s p = none) ∧
    (∀ (σ : Type) (d : DirFuncs σ) (s : σ) (p : String) (b : Bool),
      d.lstat s p = LstatResult.ok b → (validatePath d s p).isSome = true) ∧
    (∀ (σ : Type) (d : DirFuncs σ) (s : σ) (p : String),
      d.lstat s p = LstatResult.errNotExist → (validatePath d s p).isSome = true) := by
  refine ⟨?_, ?_, ?_⟩
  · intro σ d s p m h
    simp [validatePath, h]
  · intro σ d s p b h
    cases b with
    | false => simp [validatePath, h]
    | true =>
      cases hfc : d.fileCount s p with
      | error e => simp [validatePath, h, hfc]
      | ok n =>
        by_cases hn : n > 0 <;> simp [validatePath, h, hfc, hn]
  · intro σ d s p h
    cases hmk : d.mkDirAll s p mkDirAllPerm with
    | error e => simp [validatePath, h, hmk]
    | ok s2 => simp [validatePath, h, hmk]

/-- C10 witness: a world in which lstat fails with a permission error
makes validatePath hit the unguarded nil dereference. -/
theorem validatePath_nil_fileinfo_witness :
    validatePath worldDirFuncs [("/locked", StatOutcome.statError "permission denied")]
      "/locked" = none :=
  validatePath_nil_fileinfo.1 World worldDirFuncs
    [("/locked", StatOutcome.statError "permission denied")] "/locked" "permission denied" rfl

/-- C2: scenario A — request of size 10 MiB against a fresh path, the
size-report command answering 20480 blocks on its second line: creation
succeeds, the filesystem reports the measured 20 MiB (20480 / 1024), not
the requested 10, and the attachment carries the tag, machine and path. -/
theorem createFilesystem_scenario_a :
    createFilesystem (fun _ _ => Except.ok "1K-blocks\n20480") []
        ⟨"data", 10, some ⟨"0", "/mnt/x"⟩⟩ =
      some ([("/mnt/x", StatOutcome.dir mkDirAllPerm 0)],
        Except.ok (⟨"data", 20⟩, ⟨"data", "0", "/mnt/x"⟩)) ∧
    (20480 : Nat) / 1024 = 20 ∧ (20 : Nat) ≠ 10 :=
  ⟨rfl, by decide, by decide⟩

/-- When no character of the list is a newline, the newline split finds
nothing. -/
lemma splitFirstNewline_eq_none (l : List Char) (h : ∀ c ∈ l, c ≠ '\n') :
    splitFirstNewline l = none := by
  induction l with
  | nil => rfl
  | cons c cs ih =>
    have hc : c ≠ '\n' := h c (List.mem_cons_self _ _)
    simp [splitFirstNewline, hc, ih (fun d hd => h d (List.mem_cons_of_mem _ hd))]

/-- C9: when the size-report command output contains no newline,
`strings.SplitN(out, "\n", 2)` yields a single piece and the unguarded
`lines[1]` access is out of bounds, so the total embedding of
createFilesystem returns `none` (the panic case) — and that guard is
reachable whenever the earlier steps pass. -/
theorem createFilesystem_split_unguarded :
    ∀ (run : runCommandFunc) (w w1 : World) (params : FilesystemParams)
      (att : FilesystemAttachmentParams) (out : String),
      params.Attachment = some att →
      att.Path ≠ "" →
      validatePath worldDirFuncs w att.Path = some (Except.ok w1) →
      run "df" ["--output=size", att.Path] = Except.ok out →
      (∀ c ∈ out.data, c ≠ '\n') →
      createFilesystem run w params = none := by
  intro run w w1 params att out hatt hpath hvp hrun hnl
  have hsp : splitN2 out = [out] := by
    simp [splitN2, splitFirstNewline_eq_none out.data hnl]
  simp [createFilesystem, ValidateFilesystemParams, hatt, hpath, hvp, hrun, hsp]

/-- C9 witness: a command whose whole output is `20480` with no newline
drives createFilesystem into the unguarded index. -/
theorem createFilesystem_split_unguarded_witness :
    createFilesystem (fun _ _ => Except.ok "20480") []
      ⟨"data", 10, some ⟨"0", "/mnt/x"⟩⟩ = none :=
  createFilesystem_split_unguarded (fun _ _ => Except.ok "20480") []
    [("/mnt/x", StatOutcome.dir mkDirAllPerm 0)] ⟨"data", 10, some ⟨"0", "/mnt/x"⟩⟩
    ⟨"0", "/mnt/x"⟩ "20480" rfl (by decide) rfl rfl (by decide)

/-- C1: whenever the measured capacity (block count divided by 1024) is
strictly below the requested size, createFilesystem fails with the
not-big-enough error spelling out the measured and requested values in
MiB, the target directory (created or verified by this call) is removed
from the world, and a subsequent identical call finds the path absent and
takes the create branch of validatePath again. -/
theorem createFilesystem_insufficient_capacity :
    ∀ (run : runCommandFunc) (w w1 : World) (params : FilesystemParams)
      (att : FilesystemAttachmentParams) (out l0 l1 : String) (blocks : Nat),
      params.Attachment = some att →
      att.Path ≠ "" →
      validatePath worldDirFuncs w att.Path = some (Except.ok w1) →
      run "df" ["--output=size", att.Path] = Except.ok out →
      splitN2 out = [l0, l1] →
      parseUint64 (goTrimSpace l1) = Except.ok blocks →
      blocks / 1024 < params.Size →
      createFilesystem run w params =
        some (updateWorld w1 att.Path StatOutcome.notExist,
          Except.error ("filesystem is not big enough (" ++ Nat.repr (blocks / 1024)
            ++ "M < " ++ Nat.repr params.Size ++ "M)")) ∧
      lookupWorld (updateWorld w1 att.Path StatOutcome.notExist) att.Path =
        StatOutcome.notExist ∧
      validatePath worldDirFuncs (updateWorld w1 att.Path StatOutcome.notExist) att.Path =
        some (Except.ok (updateWorld (updateWorld w1 att.Path StatOutcome.notExist) att.Path
          (StatOutcome.dir mkDirAllPerm 0))) := by
  intro run w w1 params att out l0 l1 blocks hatt hpath hvp hrun hsp hparse hlt
  refine ⟨?_, ?_, ?_⟩
  · simp [createFilesystem, ValidateFilesystemParams, hatt, hpath, hvp, hrun, hsp, hparse, hlt]
  · simp [lookupWorld, updateWorld]
  · simp [validatePath, worldDirFuncs, lookupWorld, updateWorld]

/-- C1 witness: scenario B — 5120 blocks measured (5 MiB) against a
request of 10 MiB on a fresh path fails with the 5M-versus-10M message,
the created directory is gone and the next call recreates it. -/
theorem createFilesystem_insufficient_capacity_witness :
    createFilesystem (fun _ _ => Except.ok "1K-blocks\n 5120") []
        ⟨"data", 10, some ⟨"0", "/mnt/x"⟩⟩ =
      some ([("/mnt/x", StatOutcome.notExist), ("/mnt/x", StatOutcome.dir mkDirAllPerm 0)],
        Except.error "filesystem is not big enough (5M < 10M)") ∧
    lookupWorld [("/mnt/x", StatOutcome.notExist),
        ("/mnt/x", StatOutcome.dir mkDirAllPerm 0)] "/mnt/x" = StatOutcome.notExist ∧
    validatePath worldDirFuncs [("/mnt/x", StatOutcome.notExist),
        ("/mnt/x", StatOutcome.dir mkDirAllPerm 0)] "/mnt/x" =
      some (Except.ok [("/mnt/x", StatOutcome.dir mkDirAllPerm 0),
        ("/mnt/x", StatOutcome.notExist), ("/mnt/x", StatOutcome.dir mkDirAllPerm 0)]) :=
  createFilesystem_insufficient_capacity (fun _ _ => Except.ok "1K-blocks\n 5120") []
    [("/mnt/x", StatOutcome.dir mkDirAllPerm 0)] ⟨"data", 10, some ⟨"0", "/mnt/x"⟩⟩
    ⟨"0", "/mnt/x"⟩ "1K-blocks\n 5120" "1K-blocks" " 5120" 5120
    rfl (by decide) rfl rfl rfl rfl (by decide)

/-- C3: the batch call processes requests in input order; the first
per-item failure makes the whole call return just that annotated error —
no lists for earlier successes — while the world side effects of the
earlier items are kept (the successful item's state is the start state of
the rest and nothing restores it); concretely, after item `/a` succeeds
and item `/b` fails the capacity check, the batch returns only the error
and the `/a` directory still exists. -/
theorem CreateFilesystems_fail_fast :
    (∀ (run : runCommandFunc) (w w1 : World) (a : FilesystemParams)
      (rest : List FilesystemParams) (e : String),
      createFilesystem run w a = some (w1, Except.error e) →
      CreateFilesystems run w (a :: rest) =
        some (w1, Except.error ("creating filesystem: " ++ e))) ∧
    (∀ (run : runCommandFunc) (w w1 : World) (a : FilesystemParams)
      (rest : List FilesystemParams) (f : Filesystem) (fa : FilesystemAttachment),
      createFilesystem run w a = some (w1, Except.ok (f, fa)) →
      CreateFilesystems run w (a :: rest) =
        match CreateFilesystems run w1 rest with
        | none => none
        | some (w2, Except.error e) => some (w2, Except.error e)
        | some (w2, Except.ok r) => some (w2, Except.ok (f :: r.1, fa :: r.2))) ∧
    CreateFilesystems
      (fun _ args => if args.contains "/a" then Except.ok "x\n20480" else Except.ok "x\n1024")
      [] [⟨"fs1", 10, some ⟨"0", "/a"⟩⟩, ⟨"fs2", 10, some ⟨"0", "/b"⟩⟩] =
      some ([("/b", StatOutcome.notExist), ("/b", StatOutcome.dir mkDirAllPerm 0),
          ("/a", StatOutcome.dir mkDirAllPerm 0)],
        Except.error "creating filesystem: filesystem is not big enough (1M < 10M)") ∧
    lookupWorld [("/b", StatOutcome.notExist), ("/b", StatOutcome.dir mkDirAllPerm 0),
        ("/a", StatOutcome.dir mkDirAllPerm 0)] "/a" = StatOutcome.dir mkDirAllPerm 0 := by
  refine ⟨?_, ?_, by rfl, by rfl⟩
  · intro run w w1 a rest e h
    simp [CreateFilesystems, h]
  · intro run w w1 a rest f fa h
    simp [CreateFilesystems, h]

/-- C3 witness: a batch whose single item is rejected returns only the
annotated error. -/
theorem CreateFilesystems_fail_fast_witness :
    CreateFilesystems (fun _ _ => Except.ok "x\n20480") [] [⟨"fs", 1, none⟩] =
      some ([], Except.error
        "creating filesystem: creating filesystem without machine attachment not supported") :=
  CreateFilesystems_fail_fast.1 (fun _ _ => Except.ok "x\n20480") [] [] ⟨"fs", 1, none⟩ []
    "creating filesystem without machine attachment not supported" rfl

end Juju
